import Mathlib

/-!
Verification of the program-synthesis search core of the
factorio-learning-environment repository against its natural-language
specification.

The development shallowly embeds the relevant source code:

* `agents/utils/python_parser.py` (`PythonParser.extract_code` and helpers),
* `src/search/mcts/mcts.py` (`MCTS._extract_code_from_choice`,
  `MCTS._create_program`'s code filter, `MCTS.run_iteration`'s retry logic),
* `eval/open/db_client.py` (`DBClient.get_beam_heads`,
  `DBClient.create_program`, `DBClient.sample_parent`, tenacity retry
  configuration).

Python strings are modelled as `List Char`; Python floats as real numbers;
fallible operations as `Option`/`Except`.  The one external dependency the
extraction code leans on, CPython's `ast.parse`, is not part of the
repository: the extraction chain is therefore parameterised over an
arbitrary validity checker `valid : List Char → Bool`, and a concrete
checker `pyValidModel` (modelling the tokenizer-level requirement of CPython
that string literals terminate) instantiates it in concrete evaluations.
-/

namespace FLE

/-! ### Python string primitives, modelled over `List Char` -/

/-- Python `str.isspace` characters relevant to `str.strip()` (ASCII). -/
def pyIsSpace (c : Char) : Bool :=
  c = ' ' || c = '\t' || c = '\n' || c = '\r' || c = Char.ofNat 11 || c = Char.ofNat 12

/-- Python `str.strip()`: remove whitespace from both ends. -/
def trimL (s : List Char) : List Char :=
  ((s.dropWhile pyIsSpace).reverse.dropWhile pyIsSpace).reverse

/-- Python `str.strip(chars)` for a character predicate. -/
def stripBoth (p : Char → Bool) (s : List Char) : List Char :=
  ((s.dropWhile p).reverse.dropWhile p).reverse

/-- Whether `s` begins with the pattern `pat`. -/
def listStartsWith : List Char → List Char → Bool
  | [], _ => true
  | _ :: _, [] => false
  | a :: as, b :: bs => a = b && listStartsWith as bs

/-- Fuelled worker for `splitOnL`: splits on the leftmost, non-overlapping
occurrences of `sep`, exactly like Python `str.split(sep)`. -/
def splitOnGo (sep : List Char) : Nat → List Char → List Char → List (List Char)
  | 0, s, acc => [acc.reverse ++ s]
  | Nat.succ fuel, s, acc =>
    match s with
    | [] => [acc.reverse]
    | c :: rest =>
      if listStartsWith sep s then
        acc.reverse :: splitOnGo sep fuel (s.drop sep.length) []
      else
        splitOnGo sep fuel rest (c :: acc)

/-- Python `str.split(sep)` for a non-empty separator. -/
def splitOnL (sep : List Char) (s : List Char) : List (List Char) :=
  if sep = [] then [s] else splitOnGo sep (s.length + 1) s []

/-- `splitOnL` with a string-literal separator. -/
def splitOnS (sep : String) (s : List Char) : List (List Char) :=
  splitOnL sep.data s

/-- Join pieces with a separator, like Python `sep.join(pieces)`. -/
def joinWith (sep : String) (xs : List (List Char)) : List Char :=
  (List.intersperse sep.data xs).flatten

/-- Python `s.replace(sep, "")`. -/
def removeAllS (sep : String) (s : List Char) : List Char :=
  (splitOnS sep s).flatten

/-- Python `str.splitlines()` restricted to `'\n'` line endings (the only
line endings produced or consumed by the modelled code). -/
def pySplitlines (s : List Char) : List (List Char) :=
  if s = [] then []
  else
    let parts := splitOnL ['\n'] s
    if s.getLast? = some '\n' then parts.dropLast else parts

/-- Drop everything from the last `'\n'` on, like `s.rsplit('\n', 1)[0]`. -/
def dropLastLine (s : List Char) : List Char :=
  let parts := splitOnS "\n" s
  match parts with
  | [] => s
  | [_] => s
  | _ => joinWith "\n" parts.dropLast

/-- Python `"\n".join(s.split("\n")[1:])`: drop the first line. -/
def dropFirstLine (s : List Char) : List Char :=
  match splitOnS "\n" s with
  | [] => []
  | [_] => []
  | _ :: rest => joinWith "\n" rest

/-! ### A model of CPython `ast.parse` validity

`ast.parse` is CPython standard-library code, external to the repository.
For concrete evaluation we model the tokenizer-level requirement that every
string literal terminates (single-quoted literals before the end of the
line, triple-quoted literals before the end of the input).  The model is an
over-approximation of CPython validity: it agrees with CPython on every
concrete string this development evaluates it on (all of which fail or
succeed at the string-termination stage), and the structural theorems about
the extraction chain are proved for an arbitrary checker. -/

/-- The apostrophe character (Python single-quote delimiter). -/
def quoteC : Char := Char.ofNat 39

/-- The backslash character. -/
def backslashC : Char := Char.ofNat 92

/-- Tokenizer state: toplevel code, a comment, a one-line string with its
quote character, or a triple-quoted string with its quote character. -/
inductive LexSt
  | normal
  | comment
  | sstr (q : Char)
  | tstr (q : Char)

/-- String-termination check of the CPython tokenizer (fuelled worker; the
fuel is an upper bound on the input length and each step consumes at least
one character): scan the input, tracking comments and (single- or
triple-quoted) string literals; the input is rejected iff it ends inside a
string literal or a one-line string literal reaches a newline. -/
def pyLexGo : Nat → LexSt → List Char → Bool
  | _, .normal, [] => true
  | _, .comment, [] => true
  | _, .sstr _, [] => false
  | _, .tstr _, [] => false
  | 0, _, _ :: _ => false
  | Nat.succ fuel, .normal, c :: rest =>
    if c = '#' then pyLexGo fuel .comment rest
    else if c = '"' || c = quoteC then
      match rest with
      | c2 :: c3 :: rest2 =>
        if c2 = c && c3 = c then pyLexGo fuel (.tstr c) rest2
        else pyLexGo fuel (.sstr c) rest
      | _ => pyLexGo fuel (.sstr c) rest
    else pyLexGo fuel .normal rest
  | Nat.succ fuel, .comment, c :: rest =>
    if c = '\n' then pyLexGo fuel .normal rest else pyLexGo fuel .comment rest
  | Nat.succ fuel, .sstr q, c :: rest =>
    if c = q then pyLexGo fuel .normal rest
    else if c = '\n' then false
    else if c = backslashC then
      match rest with
      | _ :: rest2 => pyLexGo fuel (.sstr q) rest2
      | [] => false
    else pyLexGo fuel (.sstr q) rest
  | Nat.succ fuel, .tstr q, c :: rest =>
    if c = q then
      match rest with
      | c2 :: c3 :: rest2 =>
        if c2 = q && c3 = q then pyLexGo fuel .normal rest2
        else pyLexGo fuel (.tstr q) rest
      | _ => pyLexGo fuel (.tstr q) rest
    else if c = backslashC then
      match rest with
      | _ :: rest2 => pyLexGo fuel (.tstr q) rest2
      | [] => false
    else pyLexGo fuel (.tstr q) rest

/-- Concrete model of `PythonParser.is_valid_python` / `compile(...)`
success, as far as this development evaluates it: the input's string
literals all terminate.  See the section comment above for its status. -/
def pyValidModel (s : List Char) : Bool :=
  pyLexGo s.length .normal s

/-! ### Fenced code blocks

Both extractors find fenced blocks with a lazy regex over the whole text
(`` ```(?:\w+)?\s*(.*?)\s*``` `` in `python_parser.py`,
`` ```(python)?\s*(.*?)\s*``` `` in `mcts.py`).  A lazy, non-overlapping
scan pairs consecutive occurrences of the fence marker from the left, so
splitting on the marker yields the blocks at the odd positions, with the
last part dropped when it is not followed by a closing fence. -/

/-- Parts strictly between the 1st and 2nd, 3rd and 4th, ... occurrences of
the separator (the odd-indexed parts of a `splitOnL`, excluding an unpaired
trailing part). -/
def oddPaired : List (List Char) → List (List Char)
  | [] => []
  | [_] => []
  | _ :: b :: rest =>
    match rest with
    | [] => []
    | _ :: _ => b :: oddPaired rest

/-- Word characters of the regex class `\w` (ASCII). -/
def isWordChar (c : Char) : Bool :=
  c.isAlphanum || c = '_'

/-- The raw texts between paired triple-backtick fences. -/
def fencedRaw (content : List Char) : List (List Char) :=
  oddPaired (splitOnS "```" content)

namespace PythonParser

/-- `PythonParser.extract_all_backtick_blocks`: collect every fenced block
whose (tag-stripped, trimmed) body is non-empty and valid, join the
collected blocks with a blank line, and return the join only if it is
itself valid. -/
def extract_all_backtick_blocks (valid : List Char → Bool) (content : List Char) :
    Option (List Char) :=
  let code_blocks :=
    (fencedRaw content |>.map fun b => trimL (b.dropWhile isWordChar)).filter
      fun b => decide (b ≠ []) && valid b
  if code_blocks = [] then none
  else
    let combined := joinWith "\n\n" code_blocks
    if valid combined then some combined else none

/-- `PythonParser.clean_chunk`: drop blank lines from both ends of a chunk,
preserving internal indentation. -/
def clean_chunk (chunk : List Char) : List Char :=
  let lines := pySplitlines chunk
  let lines := lines.dropWhile fun l => trimL l = []
  let lines := (lines.reverse.dropWhile fun l => trimL l = []).reverse
  joinWith "\n" lines

/-- `PythonParser.wrap_as_comment`: one line becomes a `#` comment,
several lines become a docstring block. -/
def wrap_as_comment (text : List Char) : List Char :=
  if trimL text = [] then []
  else if (pySplitlines text).length = 1 then "# ".data ++ trimL text
  else "\"\"\"\n".data ++ text ++ "\n\"\"\"".data

/-- `PythonParser.extract_all_valid_python_chunks`: split on blank lines,
clean each chunk, keep valid chunks verbatim and wrap the rest as
comments, join with blank lines and return the join only if it is valid. -/
def extract_all_valid_python_chunks (valid : List Char → Bool) (content : List Char) :
    Option (List Char) :=
  let processed := (splitOnS "\n\n" content).filterMap fun ch =>
    let cleaned := clean_chunk ch
    if cleaned = [] then none
    else if valid cleaned then some cleaned
    else some (wrap_as_comment cleaned)
  if processed = [] then none
  else
    let final := joinWith "\n\n" processed
    if valid final then some final else none

/-- The chunk-processing tail of `PythonParser.extract_code`: strip fence
markers globally, then fall back to `extract_all_valid_python_chunks`;
`return None, None` when that also yields nothing truthy. -/
def extract_code_chunks_stage (valid : List Char → Bool) (content0 : List Char) :
    Option (List Char × List Char) :=
  let content := removeAllS "```" (removeAllS "```python" content0)
  match extract_all_valid_python_chunks valid content with
  | some code => if code = [] then none else some (code, content)
  | none => none

/-- `PythonParser.extract_code` on the response's text content: whole text
if valid, else joined fenced blocks, else comment-wrapped chunks, else
nothing (`None, None` in the source). -/
def extract_code (valid : List Char → Bool) (content : List Char) :
    Option (List Char × List Char) :=
  if valid content then some (content, content)
  else
    match extract_all_backtick_blocks valid content with
    | some code =>
      if code = [] then extract_code_chunks_stage valid content
      else some (code, content)
    | none => extract_code_chunks_stage valid content

end PythonParser

namespace MCTS

/-- `MCTS._verify_response_is_python`: accept the content if valid,
otherwise drop the last line (Python `code.rsplit('\n', 1)[0] + '\n'`) and
try once more; `none` models the propagated `SyntaxError`. -/
def verify_response_is_python (valid : List Char → Bool) (content : List Char) :
    Option (List Char) :=
  if valid content then some content
  else
    let code := dropLastLine content ++ "\n".data
    if valid code then some code else none

/-- Second capture group of the first match of
`(?s)```(python)?\s*(.*?)\s*```, or `none` when the regex does not match
(the `IndexError` of `[0]` in the source). -/
def first_backtick_block (content : List Char) : Option (List Char) :=
  match fencedRaw content with
  | [] => none
  | b :: _ =>
    some (trimL (if listStartsWith "python".data b then b.drop 6 else b))

/-- The orchestrator-side docstring fallback
`'\"\"\"\n' + content.strip().strip('\"') + '\n\"\"\"'`. -/
def docstring_wrap (s : List Char) : List Char :=
  "\"\"\"\n".data ++ stripBoth (fun c => c = '"') (trimL s) ++ "\n\"\"\"".data

/-- `MCTS._extract_code_from_choice` on the choice's text content: the
strictly ordered fallback chain of the orchestrator.  Total: every input
produces a `(code, text_response)` pair, the last resort being the
docstring wrap of the input minus its first line. -/
def extract_code_from_choice (valid : List Char → Bool) (content : List Char) :
    List Char × List Char :=
  match verify_response_is_python valid content with
  | some code => (code, content)
  | none =>
    match (first_backtick_block content).bind (verify_response_is_python valid) with
    | some code => (code, content)
    | none =>
      let content2 := dropFirstLine content
      match verify_response_is_python valid content2 with
      | some code => (code, content2)
      | none =>
        let viaMarker : Option (List Char × List Char) :=
          match splitOnS "from factorio_instance import *" content2 with
          | first :: second :: _ =>
            (verify_response_is_python valid (trimL second)).map
              fun c => (c, trimL first)
          | _ => none
        match viaMarker with
        | some r => r
        | none => (docstring_wrap content2, trimL content2)

/-- The code-extraction gate of `MCTS._create_program`: extract, then
`if not code: return None` — only a falsy (empty) code string makes the
completion be dropped. -/
def code_from_choice (valid : List Char → Bool) (content : List Char) :
    Option (List Char) :=
  let p := extract_code_from_choice valid content
  if p.1 = [] then none else some p.1

end MCTS

/-! ### The program store (`eval/open/db_client.py`) -/

namespace DB

/-! #### Exception classification

`psycopg2` follows the PEP 249 hierarchy: `OperationalError`,
`IntegrityError`, `DataError`, `InternalError`, `ProgrammingError` and
`NotSupportedError` are subclasses of `DatabaseError`; `DatabaseError` and
`InterfaceError` are subclasses of `psycopg2.Error`; plain Python errors
such as `ValueError` (`standardError` below) are outside the hierarchy. -/

inductive PgExc
  | operationalError
  | interfaceError
  | dataError
  | integrityError
  | internalError
  | programmingError
  | notSupportedError
  | databaseError
  | standardError
deriving DecidableEq, Repr

/-- `isinstance(e, psycopg2.DatabaseError)`. -/
def is_database_error : PgExc → Bool
  | .databaseError => true
  | .dataError => true
  | .operationalError => true
  | .integrityError => true
  | .internalError => true
  | .programmingError => true
  | .notSupportedError => true
  | _ => false

/-- `isinstance(e, psycopg2.OperationalError)`. -/
def is_operational_error : PgExc → Bool
  | .operationalError => true
  | _ => false

/-- `isinstance(e, psycopg2.InterfaceError)`. -/
def is_interface_error : PgExc → Bool
  | .interfaceError => true
  | _ => false

/-- `isinstance(e, psycopg2.Error)`. -/
def is_psycopg2_error : PgExc → Bool
  | .standardError => false
  | _ => true

/-- The columns of a `programs` row that `get_beam_heads` reads: `state`
and `value` are nullable (`state_json IS NOT NULL AND value IS NOT NULL`
filters on them), values are floats (modelled as rationals), the state
payload is opaque. -/
structure DbRow where
  id : Nat
  version : Nat
  depth : Nat
  value : Option ℚ
  state : Option Nat
deriving DecidableEq, Repr

/-- The `WHERE version = %s AND state_json IS NOT NULL AND value IS NOT
NULL` filter. -/
def eligible (version : Nat) (r : DbRow) : Bool :=
  r.version == version && r.state.isSome && r.value.isSome

/-- Value of a row for ranking (`ORDER BY value DESC`); only applied to
rows whose `value` is non-null. -/
def row_value (r : DbRow) : ℚ :=
  r.value.getD 0

/-- Row ordering of `ORDER BY value DESC`. -/
def value_desc (a b : DbRow) : Prop :=
  row_value b ≤ row_value a

instance : DecidableRel value_desc :=
  fun a b => inferInstanceAs (Decidable (row_value b ≤ row_value a))

instance : IsTotal DbRow value_desc :=
  ⟨fun a b => le_total (row_value b) (row_value a)⟩

instance : IsTrans DbRow value_desc :=
  ⟨fun _ _ _ h1 h2 => le_trans h2 h1⟩

/-- Row ordering of `ORDER BY depth, value DESC`. -/
def depth_value_order (a b : DbRow) : Prop :=
  a.depth < b.depth ∨ (a.depth = b.depth ∧ row_value b ≤ row_value a)

instance : DecidableRel depth_value_order :=
  fun a b =>
    inferInstanceAs (Decidable (a.depth < b.depth ∨ (a.depth = b.depth ∧ row_value b ≤ row_value a)))

/-- Keep the first row of each depth from an already-ordered list
(`SELECT DISTINCT ON (depth) ... ORDER BY depth, value DESC`). -/
def distinct_on_depth_go (seen : List Nat) : List DbRow → List DbRow
  | [] => []
  | r :: rest =>
    if r.depth ∈ seen then distinct_on_depth_go seen rest
    else r :: distinct_on_depth_go (r.depth :: seen) rest

/-- The `ProgramsByDepth` CTE: the highest-value row of each depth. -/
def distinct_on_depth (l : List DbRow) : List DbRow :=
  distinct_on_depth_go [] (List.insertionSort depth_value_order l)

/-- The ranking contract of `DBClient.get_beam_heads` applied to the table
contents: per-depth heads truncated to `beam_width` by value, the global
top `2*beam_width` by value, their deduplicated union, sorted by value
descending and truncated to `beam_width`. -/
def get_beam_heads_impl (version beam_width : Nat) (rows : List DbRow) : List DbRow :=
  let evaluated := rows.filter (eligible version)
  let depth_diverse := (List.insertionSort value_desc (distinct_on_depth evaluated)).take beam_width
  let value_focused := (List.insertionSort value_desc evaluated).take (2 * beam_width)
  let unioned := (depth_diverse ++ value_focused).dedup
  (List.insertionSort value_desc unioned).take beam_width

/-- `DBClient.get_beam_heads` with its enclosing `try/except`: a query
that raises any exception at all is answered with the empty list. -/
def get_beam_heads (version beam_width : Nat) (q : Except PgExc (List DbRow)) :
    List DbRow :=
  match q with
  | .error _ => []
  | .ok rows => get_beam_heads_impl version beam_width rows

/-- The fields of a `Program` that `create_program` writes and the claimed
round trip compares; floats are modelled as rationals, `depth` is rational
because the write path divides it by two. -/
structure ProgramRec where
  code : String
  parent_id : Option Nat
  version : Nat
  value : Option ℚ
  holdout_value : Option ℚ
  raw_reward : Option ℚ
  advantage : Option ℚ
  depth : ℚ
  state : Option Nat
deriving DecidableEq, Repr

/-- A stored `programs` row (same shape; kept distinct from `ProgramRec` so
the write path is explicit about every stored field). -/
structure StoredRow where
  code : String
  parent_id : Option Nat
  version : Nat
  value : Option ℚ
  holdout_value : Option ℚ
  raw_reward : Option ℚ
  advantage : Option ℚ
  depth : ℚ
  state : Option Nat
deriving DecidableEq, Repr

/-- `DBClient.create_program`: insert a row whose columns are the program's
fields — except the `depth` column, which receives `program.depth/2` — and
return the assigned id (row ids are modelled as list positions). -/
def create_program (store : List StoredRow) (p : ProgramRec) : Nat × List StoredRow :=
  (store.length,
    store ++ [⟨p.code, p.parent_id, p.version, p.value, p.holdout_value,
               p.raw_reward, p.advantage, p.depth / 2, p.state⟩])

/-- `SELECT * FROM programs WHERE id = %s`. -/
def get_program_by_id (store : List StoredRow) (id : Nat) : Option StoredRow :=
  store[id]?

/-! #### The tenacity retry configuration -/

/-- The arguments of one `tenacity.retry(...)` decoration: which exceptions
are retried, `stop_after_attempt` when present (`none` means tenacity's
default of retrying forever), and the wait strategy. -/
structure RetryPolicy where
  retryOn : PgExc → Bool
  stopAfterAttempt : Option Nat
  waitHasJitter : Bool
  waitMultiplier : Nat
  waitMin : Nat
  waitMax : Nat

/-- The decoration of `DBClient.create_program`:
`retry_if_exception_type((OperationalError, InterfaceError,
DatabaseError))` with `wait_random_exponential(multiplier=1, min=4,
max=10)` and no `stop` argument. -/
def create_program_retry : RetryPolicy :=
  ⟨fun e => is_operational_error e || is_interface_error e || is_database_error e,
   none, true, 1, 4, 10⟩

/-- The decoration of `DBClient.sample_parent`:
`retry_if_exception_type((OperationalError, InterfaceError))` with
`wait_random_exponential(multiplier=1, min=4, max=10)` and no `stop`. -/
def sample_parent_retry : RetryPolicy :=
  ⟨fun e => is_operational_error e || is_interface_error e, none, true, 1, 4, 10⟩

/-- Tenacity's decision after attempt number `n` (1-based) raised `e`:
retry iff the exception is of a retried type and the stop condition (when
one is configured) has not been reached. -/
def tenacity_should_retry (p : RetryPolicy) (e : PgExc) (n : Nat) : Bool :=
  p.retryOn e &&
    match p.stopAfterAttempt with
    | none => true
    | some k => n < k

/-! #### The reward-weighted sampling arithmetic of `DBClient.sample_parent`

Python floats are modelled as real numbers; `statistics.mean` and
`statistics.stdev` are the textbook sample mean and sample standard
deviation the stdlib documents. -/

/-- `statistics.mean`. -/
noncomputable def stats_mean (l : List ℝ) : ℝ :=
  l.sum / l.length

/-- `statistics.stdev` (sample standard deviation, `n - 1` denominator). -/
noncomputable def stats_stdev (l : List ℝ) : ℝ :=
  Real.sqrt ((l.map fun x => (x - stats_mean l) ^ 2).sum / (l.length - 1))

/-- `statistics.stdev(values) if len(values) > 1 else 1.0`. -/
noncomputable def std_or_one (l : List ℝ) : ℝ :=
  if 1 < l.length then stats_stdev l else 1

/-- The inner `transform_reward` of `sample_parent`: z-score when the
standard deviation is positive, `tanh` compression, rescale into positive
weights with an epsilon. -/
noncomputable def transform_reward (mean std strength v : ℝ) : ℝ :=
  let z := if 0 < std then (v - mean) / std else 0
  (Real.tanh (z * strength) + 1) / 2 + 1e-6

/-- The `(sin(2*pi*step_count/adaptive_period) + 1) / 2` adaptive
compression strength computed when no fixed strength is configured. -/
noncomputable def adaptive_compression_strength (step_count adaptive_period : Nat) : ℝ :=
  (Real.sin (2 * Real.pi * step_count / adaptive_period) + 1) / 2

/-- The `(id, transform_reward(advantage))` weight list of
`sample_parent`, over `(id, advantage)` candidate rows. -/
noncomputable def reward_weights (strength : ℝ) (cands : List (Nat × ℝ)) :
    List (Nat × ℝ) :=
  let vals := cands.map fun p => p.2
  cands.map fun p => (p.1, transform_reward (stats_mean vals) (std_or_one vals) strength p.2)

/-- `total_weight = sum(w for _, w in weights)`. -/
noncomputable def total_weight (ws : List (Nat × ℝ)) : ℝ :=
  (ws.map fun p => p.2).sum

/-- The normalised weights `(id, w / total_weight)` handed to
`random.choices`; each second component is the candidate's selection
probability. -/
noncomputable def normalized_weights (strength : ℝ) (cands : List (Nat × ℝ)) :
    List (Nat × ℝ) :=
  let ws := reward_weights strength cands
  ws.map fun p => (p.1, p.2 / total_weight ws)

/-- Which of the two selection paths `sample_parent` takes. -/
inductive SamplingBranch
  | uniformFallback
  | weightedChoice
deriving DecidableEq, Repr

/-- The `if total_weight == 0: random.choice(...) else: random.choices(...)`
dispatch of `sample_parent`. -/
noncomputable def sampling_branch (strength : ℝ) (cands : List (Nat × ℝ)) :
    SamplingBranch :=
  if total_weight (reward_weights strength cands) = 0 then .uniformFallback
  else .weightedChoice

end DB

/-! ### The orchestrator iteration (`MCTS.run_iteration`) -/

namespace MCTS

/-- `MCTS.max_retries` (the per-orchestrator counter bound). -/
def max_retries : Nat := 3

/-- The `stop_after_attempt(3)` of the tenacity decoration on
`run_iteration`. -/
def run_iteration_stop_attempts : Nat := 3

/-- One planned attempt of an iteration: the program ids the attempt
persists before finishing, and the exception (if any) it then raises. -/
structure AttemptOutcome where
  saved : List Nat
  failure : Option DB.PgExc
deriving DecidableEq, Repr

/-- The outcome of `run_iteration`: the orchestrator's `retry_count`
field, the store contents, and the exception that propagated (if any). -/
structure IterationResult where
  retry_count : Nat
  store : List Nat
  failure : Option DB.PgExc
deriving DecidableEq, Repr

/-- `MCTS.run_iteration` under its tenacity decoration
(`retry=retry_if_exception_type(psycopg2.Error)`,
`stop=tenacity.stop_after_attempt(3)`), driven by a list of planned
attempt outcomes; `n` is the 1-based attempt number.  The body's
`except Exception` handler increments `self.retry_count`, resets it to `0`
when it reaches `self.max_retries`, and re-raises; tenacity then retries
only `psycopg2.Error` instances and only while fewer than 3 attempts were
made. -/
def run_iteration_model (n rc : Nat) (store : List Nat) :
    List AttemptOutcome → IterationResult
  | [] => ⟨rc, store, none⟩
  | ⟨saved, none⟩ :: _ => ⟨rc, store ++ saved, none⟩
  | ⟨saved, some e⟩ :: rest =>
    let rc' := if max_retries ≤ rc + 1 then 0 else rc + 1
    if DB.is_psycopg2_error e && n < run_iteration_stop_attempts then
      run_iteration_model (n + 1) rc' (store ++ saved) rest
    else ⟨rc', store ++ saved, some e⟩

end MCTS

/-! ### Concrete inputs used by counterexamples and witnesses -/

/-- Three evaluated rows of version 1: two at depth 0 with the top values,
one at depth 1 with a low value. -/
def c2_rows : List DB.DbRow :=
  [⟨1, 1, 0, some 10, some 0⟩, ⟨2, 1, 0, some 9, some 0⟩, ⟨3, 1, 1, some 1, some 0⟩]

/-- A program at depth 2 with the numeric fields populated. -/
def c3_prog : DB.ProgramRec :=
  ⟨"print(1)", none, 1, some 1, some 2, some 3, some 0, 2, some 0⟩

/-- Four candidates whose advantages all equal 5 (the spec's zero-variance
reward list `[5,5,5,5]`). -/
def c6_cands : List (Nat × ℝ) :=
  [(0, 5), (1, 5), (2, 5), (3, 5)]

/-- A single candidate row for the fallback-unreachability witness. -/
def c9_cands : List (Nat × ℝ) :=
  [(0, 5)]

/-- A table whose only row of version 1 is unevaluated (`value` null). -/
def c10_rows : List DB.DbRow :=
  [⟨1, 1, 0, none, none⟩]

/-! ### Helper lemmas -/

theorem extract_all_backtick_blocks_sound {valid : List Char → Bool}
    {c s : List Char} (h : PythonParser.extract_all_backtick_blocks valid c = some s) :
    valid s = true := by
  unfold PythonParser.extract_all_backtick_blocks at h
  dsimp only at h
  split at h
  · exact absurd h (by simp)
  · split at h
    · simpa using (Option.some_injective _ h) ▸ (by assumption : valid _ = true)
    · exact absurd h (by simp)

theorem extract_all_valid_python_chunks_sound {valid : List Char → Bool}
    {c s : List Char} (h : PythonParser.extract_all_valid_python_chunks valid c = some s) :
    valid s = true := by
  unfold PythonParser.extract_all_valid_python_chunks at h
  dsimp only at h
  split at h
  · exact absurd h (by simp)
  · split at h
    · simpa using (Option.some_injective _ h) ▸ (by assumption : valid _ = true)
    · exact absurd h (by simp)

theorem extract_code_chunks_stage_sound {valid : List Char → Bool}
    {c code orig : List Char}
    (h : PythonParser.extract_code_chunks_stage valid c = some (code, orig)) :
    valid code = true := by
  unfold PythonParser.extract_code_chunks_stage at h
  dsimp only at h
  split at h
  · split at h
    · exact absurd h (by simp)
    · have hv := extract_all_valid_python_chunks_sound (by assumption)
      obtain ⟨rfl, rfl⟩ := Prod.mk.injEq .. ▸ Option.some_injective _ h
      exact hv
  · exact absurd h (by simp)

theorem neg_one_lt_tanh (x : ℝ) : -1 < Real.tanh x := by
  have h := Real.sinh_lt_cosh (-x)
  rw [Real.sinh_neg, Real.cosh_neg] at h
  rw [Real.tanh_eq_sinh_div_cosh, lt_div_iff₀ (Real.cosh_pos x)]
  linarith

theorem transform_reward_ge (mean std strength v : ℝ) :
    1e-6 ≤ DB.transform_reward mean std strength v := by
  unfold DB.transform_reward
  have h := neg_one_lt_tanh ((if 0 < std then (v - mean) / std else 0) * strength)
  linarith

theorem sum_all_eq {l : List ℝ} {a : ℝ} (h : ∀ x ∈ l, x = a) :
    l.sum = l.length * a := by
  induction l with
  | nil => simp
  | cons x xs ih =>
    simp only [List.sum_cons, List.length_cons]
    rw [h x (by simp), ih fun y hy => h y (by simp [hy])]
    push_cast
    ring

theorem sum_all_eq_zero {l : List ℝ} (h : ∀ x ∈ l, x = 0) : l.sum = 0 := by
  have := sum_all_eq h
  simpa using this

theorem mem_distinct_on_depth_go {x : DB.DbRow} :
    ∀ (seen : List Nat) (l : List DB.DbRow),
      x ∈ DB.distinct_on_depth_go seen l → x ∈ l := by
  intro seen l
  induction l generalizing seen with
  | nil => intro hx; exact absurd hx (by simp [DB.distinct_on_depth_go])
  | cons r rest ih =>
    intro hx
    unfold DB.distinct_on_depth_go at hx
    split at hx
    · exact List.mem_cons_of_mem _ (ih _ hx)
    · rcases List.mem_cons.1 hx with h1 | h2
      · exact h1 ▸ List.mem_cons_self _ _
      · exact List.mem_cons_of_mem _ (ih _ h2)

theorem run_iteration_store_extends :
    ∀ (trace : List MCTS.AttemptOutcome) (n rc : Nat) (store : List Nat),
      ∃ extra, (MCTS.run_iteration_model n rc store trace).store = store ++ extra := by
  intro trace
  induction trace with
  | nil => exact fun n rc store => ⟨[], by simp [MCTS.run_iteration_model]⟩
  | cons o rest ih =>
    intro n rc store
    obtain ⟨saved, failure⟩ := o
    match failure with
    | none => exact ⟨saved, by simp [MCTS.run_iteration_model]⟩
    | some e =>
      simp only [MCTS.run_iteration_model]
      by_cases hretry :
          (DB.is_psycopg2_error e && decide (n < MCTS.run_iteration_stop_attempts)) = true
      · rw [if_pos hretry]
        obtain ⟨extra, hextra⟩ := ih (n + 1)
          (if MCTS.max_retries ≤ rc + 1 then 0 else rc + 1) (store ++ saved)
        exact ⟨saved ++ extra, by rw [hextra, List.append_assoc]⟩
      · rw [if_neg hretry]
        exact ⟨saved, rfl⟩

/-! ### Claim C1 -/

/-- Claim C1, counterexample.  The claim states that for every input text
the completion extractor returns a string that parses as valid Python.  On
the input `a"""\nb` (whose docstring wrapping contains an unterminated
triple quote) `PythonParser.extract_code` returns no code string at all
(`return None, None` in the source): the whole text is invalid, there are
no fenced blocks, and the comment-wrapped chunk join is itself invalid
because wrapping a text containing `"""` in `"""..."""` does not parse. -/
theorem c1_counterexample_no_string_returned :
    PythonParser.extract_code pyValidModel ("a\"\"\"\nb").data = none := by decide

/-- Claim C1, amended.  `extract_code` is a total function of the input
text (it never raises), and whenever it does return a code string, that
string passed the `is_valid_python` check the source applies — but for
some inputs it returns nothing (`None, None`), so "always returns a
syntactically valid string" fails. -/
theorem c1_extract_code_returns_only_valid (valid : List Char → Bool)
    (content code orig : List Char)
    (h : PythonParser.extract_code valid content = some (code, orig)) :
    valid code = true := by
  unfold PythonParser.extract_code at h
  split at h
  · obtain ⟨rfl, rfl⟩ := Prod.mk.injEq .. ▸ Option.some_injective _ h
    assumption
  · split at h
    · split at h
      · exact extract_code_chunks_stage_sound h
      · have hv := extract_all_backtick_blocks_sound (by assumption)
        obtain ⟨rfl, rfl⟩ := Prod.mk.injEq .. ▸ Option.some_injective _ h
        exact hv
    · exact extract_code_chunks_stage_sound h

/-- Witness for the amended claim C1, at the whole-text-valid input
`print(1)`. -/
theorem c1_extract_code_returns_only_valid_witness :
    PythonParser.extract_code pyValidModel ("print(1)").data
      = some (("print(1)").data, ("print(1)").data) ∧
    pyValidModel ("print(1)").data = true :=
  ⟨by decide,
   c1_extract_code_returns_only_valid pyValidModel ("print(1)").data
     ("print(1)").data ("print(1)").data (by decide)⟩

/-! ### Claim C2 -/

/-- Claim C2, counterexample.  With `beam_width = 2` and three evaluated
rows — values 10 and 9 at depth 0, value 1 at depth 1 — exactly 2 distinct
depths contain evaluated programs, yet `get_beam_heads` returns the two
depth-0 rows (the final `ORDER BY value DESC LIMIT beam_width` over the
union drops the depth-1 head), so not every represented depth appears. -/
theorem c2_counterexample_depth_not_represented :
    ((c2_rows.filter (DB.eligible 1)).map DB.DbRow.depth).dedup.length = 2 ∧
    (DB.get_beam_heads_impl 1 2 c2_rows).map DB.DbRow.depth = [0, 0] ∧
    ¬ (∀ d ∈ ((c2_rows.filter (DB.eligible 1)).map DB.DbRow.depth).dedup,
        ∃ r ∈ DB.get_beam_heads_impl 1 2 c2_rows, r.depth = d) := by decide

/-- Claim C2, amended.  For every version, beam width and table contents,
`get_beam_heads` returns at most `beam_width` rows, sorted by value
descending, and every returned row is an evaluated program of the version;
representation of every depth is not guaranteed. -/
theorem c2_beam_heads_bounded_sorted_eligible (version beam_width : Nat)
    (rows : List DB.DbRow) :
    (DB.get_beam_heads_impl version beam_width rows).length ≤ beam_width ∧
    List.Sorted DB.value_desc (DB.get_beam_heads_impl version beam_width rows) ∧
    (∀ r ∈ DB.get_beam_heads_impl version beam_width rows,
      DB.eligible version r = true) := by
  unfold DB.get_beam_heads_impl
  refine ⟨?_, ?_, ?_⟩
  · exact List.length_take_le _ _
  · exact List.Pairwise.sublist (List.take_sublist _ _)
      (List.sorted_insertionSort DB.value_desc _)
  · intro r hr
    have h1 : r ∈ List.insertionSort DB.value_desc
        (((List.insertionSort DB.value_desc
            (DB.distinct_on_depth (rows.filter (DB.eligible version)))).take beam_width ++
          (List.insertionSort DB.value_desc
            (rows.filter (DB.eligible version))).take (2 * beam_width)).dedup) :=
      (List.take_sublist _ _).subset hr
    rw [List.mem_insertionSort, List.mem_dedup] at h1
    have h2 : r ∈ rows.filter (DB.eligible version) := by
      rcases List.mem_append.1 h1 with ha | hb
      · have hmem := (List.take_sublist _ _).subset ha
        rw [List.mem_insertionSort] at hmem
        have hmem2 := mem_distinct_on_depth_go _ _ hmem
        rwa [List.mem_insertionSort] at hmem2
      · have hmem := (List.take_sublist _ _).subset hb
        rwa [List.mem_insertionSort] at hmem
    exact (List.mem_filter.1 h2).2

/-! ### Claim C3 -/

/-- Claim C3, counterexample.  A program created with `depth = 2` is
fetched back with `depth = 1`: `create_program` inserts `program.depth/2`
into the `depth` column, so the created/fetched rows do not agree on all
numeric fields. -/
theorem c3_counterexample_depth_halved :
    (DB.get_program_by_id (DB.create_program [] c3_prog).2
        (DB.create_program [] c3_prog).1).map DB.StoredRow.depth = some 1 ∧
    c3_prog.depth = 2 ∧ (1 : ℚ) ≠ 2 := by
  refine ⟨?_, rfl, by norm_num⟩
  simp [DB.get_program_by_id, DB.create_program, c3_prog]

/-- Claim C3, amended.  Creating a program and fetching it by the returned
id yields a row with identical `code`, `parent_id`, `version`, `value`,
`holdout_value`, `raw_reward` and `advantage` — but the `depth` field comes
back halved (`program.depth/2` is what the write path stores). -/
theorem c3_round_trip_fields (store : List DB.StoredRow) (p : DB.ProgramRec) :
    DB.get_program_by_id (DB.create_program store p).2 (DB.create_program store p).1
      = some ⟨p.code, p.parent_id, p.version, p.value, p.holdout_value,
              p.raw_reward, p.advantage, p.depth / 2, p.state⟩ := by
  simp [DB.get_program_by_id, DB.create_program]

/-! ### Claim C4 -/

/-- Claim C4, counterexample.  `psycopg2.IntegrityError` (a constraint
violation) is an instance of `psycopg2.DatabaseError`, which
`create_program`'s `retry_if_exception_type` includes, and no `stop`
argument is configured: the policy still chooses to retry a constraint
violation at attempt number 1000000 — neither "propagates immediately"
nor "bounded attempt count" holds. -/
theorem c4_counterexample_integrity_retried :
    DB.tenacity_should_retry DB.create_program_retry .integrityError 1000000 = true := by
  decide

/-- Claim C4, amended.  Store operations retry exactly the exception
classes named in their `retry_if_exception_type` — for `create_program`
these are `OperationalError`, `InterfaceError` and `DatabaseError` (hence
every `DatabaseError` subclass, constraint violations included), for
`sample_parent` only `OperationalError` and `InterfaceError` — with
exponential backoff plus random jitter but with no `stop` configured, so
the retry decision is independent of the attempt count (unbounded);
exceptions outside the configured classes propagate immediately. -/
theorem c4_retry_policy_characterization :
    (∀ (e : DB.PgExc) (n : Nat),
      DB.tenacity_should_retry DB.create_program_retry e n
        = (DB.is_operational_error e || DB.is_interface_error e || DB.is_database_error e)) ∧
    (∀ (e : DB.PgExc) (n : Nat),
      DB.tenacity_should_retry DB.sample_parent_retry e n
        = (DB.is_operational_error e || DB.is_interface_error e)) ∧
    DB.create_program_retry.stopAfterAttempt = none ∧
    DB.sample_parent_retry.stopAfterAttempt = none ∧
    DB.create_program_retry.waitHasJitter = true ∧
    DB.sample_parent_retry.waitHasJitter = true ∧
    DB.is_database_error .integrityError = true ∧
    (∀ n : Nat,
      DB.tenacity_should_retry DB.create_program_retry .standardError n = false) := by
  refine ⟨?_, ?_, rfl, rfl, rfl, rfl, rfl, ?_⟩
  · intro e n
    simp [DB.tenacity_should_retry, DB.create_program_retry]
  · intro e n
    simp [DB.tenacity_should_retry, DB.sample_parent_retry]
  · intro n
    simp [DB.tenacity_should_retry, DB.create_program_retry,
      DB.is_operational_error, DB.is_interface_error, DB.is_database_error]

/-! ### Claim C5 -/

/-- Claim C5, counterexample.  On the completion `x x\ny"""\nz z` no
strategy recovers executable code, so `_extract_code_from_choice` degrades
to the docstring wrapper — but the wrapper is a non-empty string, so
`_create_program`'s `if not code: return None` filter keeps it: the
orchestrator does not drop this no-code completion (and no "no code
recovered" marker exists anywhere in the return value). -/
theorem c5_counterexample_wrapped_not_dropped :
    MCTS.code_from_choice pyValidModel ("x x\ny\"\"\"\nz z").data
      = some (("\"\"\"\ny\"\"\"\nz z\n\"\"\"").data) := by decide

/-- Claim C5, amended.  When every strategy of the orchestrator's
extraction chain fails, extraction does not raise: it returns the input
minus its first line wrapped as a docstring, paired with the stripped
text — with no separate no-code marker — and since the wrapper is never
empty, `_create_program` keeps the completion instead of dropping it (only
completions whose extracted code is the empty string are dropped). -/
theorem c5_fallback_wraps_and_keeps (valid : List Char → Bool) (content : List Char)
    (h1 : MCTS.verify_response_is_python valid content = none)
    (h2 : (MCTS.first_backtick_block content).bind
            (MCTS.verify_response_is_python valid) = none)
    (h3 : MCTS.verify_response_is_python valid (dropFirstLine content) = none)
    (h4 : (splitOnS "from factorio_instance import *" (dropFirstLine content)).length = 1) :
    MCTS.extract_code_from_choice valid content
      = (MCTS.docstring_wrap (dropFirstLine content), trimL (dropFirstLine content)) ∧
    MCTS.code_from_choice valid content
      = some (MCTS.docstring_wrap (dropFirstLine content)) := by
  have hsplit : ∃ x, splitOnS "from factorio_instance import *" (dropFirstLine content) = [x] := by
    match hs : splitOnS "from factorio_instance import *" (dropFirstLine content) with
    | [] => rw [hs] at h4; simp at h4
    | [x] => exact ⟨x, rfl⟩
    | x :: y :: rest => rw [hs] at h4; simp at h4
  obtain ⟨x, hx⟩ := hsplit
  have hext : MCTS.extract_code_from_choice valid content
      = (MCTS.docstring_wrap (dropFirstLine content), trimL (dropFirstLine content)) := by
    simp only [MCTS.extract_code_from_choice, h1, h2, h3, hx]
  refine ⟨hext, ?_⟩
  unfold MCTS.code_from_choice
  rw [hext]
  have hne : MCTS.docstring_wrap (dropFirstLine content) ≠ [] := by
    unfold MCTS.docstring_wrap
    simp
  simp [hne]

/-- Witness for the amended claim C5, at the all-strategies-fail input
`x x\ny"""\nz z`. -/
theorem c5_fallback_wraps_and_keeps_witness :
    (MCTS.verify_response_is_python pyValidModel ("x x\ny\"\"\"\nz z").data = none ∧
     (MCTS.first_backtick_block ("x x\ny\"\"\"\nz z").data).bind
       (MCTS.verify_response_is_python pyValidModel) = none ∧
     MCTS.verify_response_is_python pyValidModel
       (dropFirstLine ("x x\ny\"\"\"\nz z").data) = none ∧
     (splitOnS "from factorio_instance import *"
       (dropFirstLine ("x x\ny\"\"\"\nz z").data)).length = 1) ∧
    (MCTS.extract_code_from_choice pyValidModel ("x x\ny\"\"\"\nz z").data
      = (MCTS.docstring_wrap (dropFirstLine ("x x\ny\"\"\"\nz z").data),
         trimL (dropFirstLine ("x x\ny\"\"\"\nz z").data)) ∧
     MCTS.code_from_choice pyValidModel ("x x\ny\"\"\"\nz z").data
      = some (MCTS.docstring_wrap (dropFirstLine ("x x\ny\"\"\"\nz z").data))) :=
  ⟨⟨by decide, by decide, by decide, by decide⟩,
   c5_fallback_wraps_and_keeps pyValidModel ("x x\ny\"\"\"\nz z").data
     (by decide) (by decide) (by decide) (by decide)⟩

/-! ### Claim C6 -/

/-- Claim C6 (confirmed).  When all candidate advantages coincide, the
sample mean equals that common value, the sample standard deviation is
zero (or the count is one and the source substitutes 1.0), so every
z-score is zero: each transformed weight equals `(tanh 0 + 1)/2 + 1e-6 =
1/2 + 1e-6`, and each normalised selection probability equals `1/n`. -/
theorem c6_zero_variance_equal_probability (strength a : ℝ)
    (cands : List (Nat × ℝ)) (hne : cands ≠ []) (hall : ∀ p ∈ cands, p.2 = a) :
    (∀ q ∈ DB.reward_weights strength cands, q.2 = 1 / 2 + 1e-6) ∧
    (∀ q ∈ DB.normalized_weights strength cands, q.2 = 1 / cands.length) := by
  have hv : ∀ x ∈ cands.map (fun p => p.2), x = a := by
    intro x hx
    obtain ⟨p, hp, rfl⟩ := List.mem_map.1 hx
    exact hall p hp
  have hlen : (cands.map fun p => p.2).length = cands.length := List.length_map _ _
  have hn0 : cands.length ≠ 0 := fun h => hne (List.length_eq_zero.1 h)
  have hnR : (cands.length : ℝ) ≠ 0 := Nat.cast_ne_zero.mpr hn0
  have hmean : DB.stats_mean (cands.map fun p => p.2) = a := by
    unfold DB.stats_mean
    rw [sum_all_eq hv, hlen]
    field_simp
  have hstd : DB.std_or_one (cands.map fun p => p.2)
      = if 1 < (cands.map fun p => p.2).length then 0 else 1 := by
    unfold DB.std_or_one
    split
    · unfold DB.stats_stdev
      rw [sum_all_eq_zero]
      · simp
      · intro x hx
        obtain ⟨y, hy, rfl⟩ := List.mem_map.1 hx
        rw [hv y hy, hmean]
        ring
    · rfl
  have htr : ∀ v : ℝ, v = a →
      DB.transform_reward (DB.stats_mean (cands.map fun p => p.2))
        (DB.std_or_one (cands.map fun p => p.2)) strength v = 1 / 2 + 1e-6 := by
    intro v hva
    rw [hmean, hstd]
    unfold DB.transform_reward
    subst hva
    split
    · norm_num
    · norm_num
  have hw : ∀ q ∈ DB.reward_weights strength cands, q.2 = 1 / 2 + 1e-6 := by
    intro q hq
    obtain ⟨p, hp, rfl⟩ := List.mem_map.1 hq
    exact htr p.2 (hall p hp)
  refine ⟨hw, ?_⟩
  have htot : DB.total_weight (DB.reward_weights strength cands)
      = cands.length * (1 / 2 + 1e-6) := by
    unfold DB.total_weight
    rw [sum_all_eq (a := 1 / 2 + 1e-6)]
    · rw [List.length_map]
      unfold DB.reward_weights
      rw [List.length_map]
    · intro x hx
      obtain ⟨q, hq, rfl⟩ := List.mem_map.1 hx
      exact hw q hq
  intro q hq
  unfold DB.normalized_weights at hq
  obtain ⟨w, hwmem, rfl⟩ := List.mem_map.1 hq
  simp only
  rw [hw w hwmem, htot]
  field_simp
  ring

/-- Witness for claim C6, at the spec's reward list `[5,5,5,5]`. -/
theorem c6_zero_variance_equal_probability_witness :
    (c6_cands ≠ [] ∧ ∀ p ∈ c6_cands, p.2 = 5) ∧
    ((∀ q ∈ DB.reward_weights 1 c6_cands, q.2 = 1 / 2 + 1e-6) ∧
     (∀ q ∈ DB.normalized_weights 1 c6_cands, q.2 = 1 / c6_cands.length)) :=
  ⟨⟨by simp [c6_cands], by intro p hp; fin_cases hp <;> rfl⟩,
   c6_zero_variance_equal_probability 1 5 c6_cands (by simp [c6_cands])
     (by intro p hp; fin_cases hp <;> rfl)⟩

/-! ### Claim C7 -/

/-- Claim C7 (confirmed).  With no fixed strength configured, the sampler
computes `(sin(2*pi*c/T) + 1)/2`; at `c = T/4` (i.e. `T = 4c`) this is
`(sin(pi/2) + 1)/2 = 1`, and at `c = 0` it is `(sin 0 + 1)/2 = 1/2`. -/
theorem c7_adaptive_strength_peak_and_base (c T : Nat) (hc : 0 < c) (hT : T = 4 * c) :
    DB.adaptive_compression_strength c T = 1 ∧
    DB.adaptive_compression_strength 0 T = 1 / 2 := by
  subst hT
  constructor
  · unfold DB.adaptive_compression_strength
    have hc' : (c : ℝ) ≠ 0 := Nat.cast_ne_zero.mpr hc.ne'
    have harg : 2 * Real.pi * c / ((4 * c : Nat) : ℝ) = Real.pi / 2 := by
      push_cast
      field_simp
      ring
    rw [harg, Real.sin_pi_div_two]
    norm_num
  · unfold DB.adaptive_compression_strength
    norm_num

/-- Witness for claim C7, at `c = 1`, `T = 4`. -/
theorem c7_adaptive_strength_peak_and_base_witness :
    (0 < 1 ∧ 4 = 4 * 1) ∧
    (DB.adaptive_compression_strength 1 4 = 1 ∧
     DB.adaptive_compression_strength 0 4 = 1 / 2) :=
  ⟨⟨by decide, by decide⟩,
   c7_adaptive_strength_peak_and_base 1 4 (by decide) (by decide)⟩

/-! ### Claim C8 -/

/-- Claim C8, counterexample.  A non-psycopg2 exception (e.g. a
`ValueError`) raised in the first attempt of `run_iteration` is not
retried by the tenacity decoration (`retry_if_exception_type(psycopg2.Error)`):
the error propagates immediately with the per-orchestrator counter at 1 —
not reset to zero, and not after the retry bound was exceeded, contrary to
the claimed "retried up to the bound, then counter reset and propagate". -/
theorem c8_counterexample_immediate_propagation :
    MCTS.run_iteration_model 1 0 [] [⟨[], some .standardError⟩]
      = ⟨1, [], some .standardError⟩ := by decide

/-- Claim C8, amended.  Every caught exception increments the
per-orchestrator counter (resetting it to zero when it reaches
`max_retries = 3`), but only `psycopg2.Error` instances are retried, and
at most 3 attempts are made per call: a non-psycopg2 exception propagates
after its first attempt with the counter merely incremented, a psycopg2
error failing three times propagates with the counter reset to 0, and in
every case the store is only ever extended — programs persisted earlier
are left unchanged. -/
theorem c8_iteration_retry_semantics (e f : DB.PgExc) (rc : Nat)
    (store s1 s2 s3 : List Nat) (rest : List MCTS.AttemptOutcome)
    (he : DB.is_psycopg2_error e = false) (hf : DB.is_psycopg2_error f = true) :
    MCTS.run_iteration_model 1 rc store (⟨s1, some e⟩ :: rest)
      = ⟨if 3 ≤ rc + 1 then 0 else rc + 1, store ++ s1, some e⟩ ∧
    MCTS.run_iteration_model 1 0 store [⟨s1, some f⟩, ⟨s2, some f⟩, ⟨s3, some f⟩]
      = ⟨0, store ++ s1 ++ s2 ++ s3, some f⟩ ∧
    (∀ (n rc' : Nat) (trace : List MCTS.AttemptOutcome),
      ∃ extra, (MCTS.run_iteration_model n rc' store trace).store = store ++ extra) := by
  refine ⟨?_, ?_, fun n rc' trace => run_iteration_store_extends trace n rc' store⟩
  · unfold MCTS.run_iteration_model
    rw [he]
    simp [MCTS.max_retries]
  · unfold MCTS.run_iteration_model
    rw [hf]
    simp only [MCTS.max_retries, MCTS.run_iteration_stop_attempts]
    norm_num
    unfold MCTS.run_iteration_model
    rw [hf]
    simp only [MCTS.max_retries, MCTS.run_iteration_stop_attempts]
    norm_num
    unfold MCTS.run_iteration_model
    rw [hf]
    simp [MCTS.max_retries, MCTS.run_iteration_stop_attempts, List.append_assoc]

/-- Witness for the amended claim C8, with a `ValueError`-like exception, an
`OperationalError`, counter 0 and singleton save lists. -/
theorem c8_iteration_retry_semantics_witness :
    (DB.is_psycopg2_error .standardError = false ∧
     DB.is_psycopg2_error .operationalError = true) ∧
    (MCTS.run_iteration_model 1 0 [] (⟨[1], some .standardError⟩ :: [])
       = ⟨if 3 ≤ 0 + 1 then 0 else 0 + 1, [] ++ [1], some .standardError⟩ ∧
     MCTS.run_iteration_model 1 0 []
         [⟨[1], some .operationalError⟩, ⟨[2], some .operationalError⟩,
          ⟨[3], some .operationalError⟩]
       = ⟨0, [] ++ [1] ++ [2] ++ [3], some .operationalError⟩ ∧
     (∀ (n rc' : Nat) (trace : List MCTS.AttemptOutcome),
       ∃ extra, (MCTS.run_iteration_model n rc' [] trace).store = [] ++ extra)) :=
  ⟨⟨by decide, by decide⟩,
   c8_iteration_retry_semantics .standardError .operationalError 0 [] [1] [2] [3] []
     (by decide) (by decide)⟩

/-! ### Claim C9 -/

/-- Claim C9 (confirmed).  Since `tanh` is strictly greater than `-1`,
every transformed weight `(tanh(z*strength) + 1)/2 + 1e-6` is at least
`1e-6`; over a non-empty candidate list the total weight is therefore
strictly positive, so the `total_weight == 0` uniform-choice fallback
branch of `sample_parent` is unreachable. -/
theorem c9_weights_positive_no_uniform_fallback (strength : ℝ)
    (cands : List (Nat × ℝ)) (hne : cands ≠ []) :
    (∀ mean std v : ℝ, 1e-6 ≤ DB.transform_reward mean std strength v) ∧
    0 < DB.total_weight (DB.reward_weights strength cands) ∧
    DB.sampling_branch strength cands = .weightedChoice := by
  have hpos : 0 < DB.total_weight (DB.reward_weights strength cands) := by
    unfold DB.total_weight
    apply List.sum_pos
    · intro x hx
      obtain ⟨q, hq, rfl⟩ := List.mem_map.1 hx
      obtain ⟨p, hp, rfl⟩ := List.mem_map.1 hq
      have := transform_reward_ge (DB.stats_mean (cands.map fun p => p.2))
        (DB.std_or_one (cands.map fun p => p.2)) strength p.2
      simp only
      linarith
    · simp only [ne_eq, List.map_eq_nil_iff]
      unfold DB.reward_weights
      simpa using hne
  refine ⟨fun mean std v => transform_reward_ge mean std strength v, hpos, ?_⟩
  unfold DB.sampling_branch
  rw [if_neg hpos.ne']

/-- Witness for claim C9, at a single candidate of advantage 5 and
strength 1. -/
theorem c9_weights_positive_no_uniform_fallback_witness :
    c9_cands ≠ [] ∧
    ((∀ mean std v : ℝ, 1e-6 ≤ DB.transform_reward mean std 1 v) ∧
     0 < DB.total_weight (DB.reward_weights 1 c9_cands) ∧
     DB.sampling_branch 1 c9_cands = .weightedChoice) :=
  ⟨by simp [c9_cands],
   c9_weights_positive_no_uniform_fallback 1 c9_cands (by simp [c9_cands])⟩

/-! ### Claim C10 -/

/-- Claim C10 (confirmed).  `get_beam_heads` never raises to its caller:
any exception from the query — transient or not — is caught and answered
with `[]`, which is exactly what a version with no evaluated programs
yields, so the two situations are indistinguishable to the caller. -/
theorem c10_beam_heads_swallows_errors (version beam_width : Nat)
    (e : DB.PgExc) (rows : List DB.DbRow)
    (h : ∀ r ∈ rows, DB.eligible version r = false) :
    DB.get_beam_heads version beam_width (.error e) = [] ∧
    DB.get_beam_heads version beam_width (.error e)
      = DB.get_beam_heads version beam_width (.ok rows) := by
  have hfil : rows.filter (DB.eligible version) = [] := by
    simp only [List.filter_eq_nil_iff]
    intro r hr
    simp [h r hr]
  constructor
  · rfl
  · simp only [DB.get_beam_heads, DB.get_beam_heads_impl, DB.distinct_on_depth]
    rw [hfil]
    simp [DB.distinct_on_depth_go]

/-- Witness for claim C10, at version 1, beam width 2, an
`IntegrityError`, and a table whose only row is unevaluated. -/
theorem c10_beam_heads_swallows_errors_witness :
    (∀ r ∈ c10_rows, DB.eligible 1 r = false) ∧
    (DB.get_beam_heads 1 2 (.error .integrityError) = [] ∧
     DB.get_beam_heads 1 2 (.error .integrityError)
       = DB.get_beam_heads 1 2 (.ok c10_rows)) :=
  ⟨by decide,
   c10_beam_heads_swallows_errors 1 2 .integrityError c10_rows (by decide)⟩

end FLE
